import Mathlib

/-!
Verification of the Roam SaaS AI explainability worker.

This file gives a shallow embedding, in Lean 4, of the worker's core
algorithms, translated from the TypeScript source:

* `src/db/queries/categories.ts` — nested-set ancestor stripping
  (`resolveFixedCategories`);
* `src/db/filter-chain.ts` — the Products component filter chain
  (`traceProductsFilterChain`, `checkTarget`);
* `src/index.ts` — tenant resolution and the orchestrator's
  page-component data-resolution path (`resolveTenantFromHostname`,
  `resolveData`);
* `src/db/connection.ts` — tenant validation and the `craft_` table-name
  rewriting applied to every SQL string (`validateTenant`,
  `createConnection.query`);
* `src/db/queries/atdw.ts` and `src/db/filter-chains/atdw.ts` — the
  import-domain postcode-match step (`matchPostcodeToRegions`,
  `atdw_postcode_match`);
* `src/explain/generator.ts` — conversation-history packing
  (`buildHistoryContext`);
* `src/knowledge/search.ts` — code-context retrieval (`retrieveContext`).

Database reads are modelled as oracle functions bundled in a `Db`
structure: the embedding is parametric in what the relational store
returns, exactly as the TypeScript functions are parametric in their
`DatabaseConnection`.  JavaScript machine numbers that hold database ids
are modelled as `Int`; counts and lengths as `Nat`.  Presentational
`details` maps on trace steps (heterogeneous JSON) are elided; the
`description` strings are kept.
-/

namespace Roam

/-- Relation entry `{ id, title }` as produced by the relation harvest
(`BlockData.relations` values in `src/types.ts`). -/
structure Rel where
  id : Int
  title : String
deriving DecidableEq, Repr

/-- Enumerated trace step names (`TraceStepName` in `src/types.ts`). -/
inductive TraceStepName where
  | resolve_categories
  | resolve_regions
  | region_to_products
  | resolve_taxonomy
  | main_query
  | merge_explicit
  | apply_excludes
  | sort
  | limit
  | block_config
  | atdw_postcode_match
deriving DecidableEq, Repr

/-- One step of a trace (`TraceStep` in `src/types.ts`).  The free-form
`details` map is elided; `targetPresent` is `boolean | null`, modelled
as `Option Bool`. -/
structure TraceStep where
  step : TraceStepName
  description : String
  count : Nat
  productIds : List Int
  targetPresent : Option Bool
deriving DecidableEq, Repr

/-- Component configuration extracted from a products block
(`ComponentConfig` in `src/types.ts`). -/
structure ComponentConfig where
  categories : List Rel
  regions : List Rel
  tiers : List Rel
  taxonomy : List Rel
  explicitProducts : List Rel
  excludeProducts : List Rel
  limit : Nat
  order : String
  style : Option String
  layout : String
deriving DecidableEq, Repr

/-- Scalar columns of a block row in the matrix-content table, before
defaulting (`extractScalar` reads `fieldValues[column]` and substitutes
the default only when the value is null/undefined). -/
structure FieldValues where
  limitVal : Option Nat
  orderVal : Option String
  styleVal : Option String
  layoutVal : Option String
deriving DecidableEq, Repr

/-- A page-builder block (`BlockData` in `src/types.ts`): the relation
map is represented by one field per handle read by the filter chain,
each defaulting to `[]` exactly as `block.relations[h] ?? []` does. -/
structure BlockData where
  includeCategories : List Rel
  includeRegions : List Rel
  includeTiers : List Rel
  includeTaxonomy : List Rel
  products : List Rel
  includeProducts : List Rel
  excludeProducts : List Rel
  fieldValues : FieldValues
deriving DecidableEq, Repr

/-- A row of `craft_structureelements`: the nested-set bookkeeping used
by `resolveFixedCategories` (`src/db/queries/categories.ts`). -/
structure StructRow where
  elementId : Int
  structureId : Int
  lft : Int
  rgt : Int
deriving DecidableEq, Repr

/-- Decides whether element `a` is a nested-set ancestor of element `b`:
some pair of structure rows for `a` and `b` shares a `structureId` with
`parent.lft < child.lft` and `child.rgt < parent.rgt`, and `a ≠ b`
(the SQL join in `resolveFixedCategories` with its
`child.elementId != parent.elementId` guard). -/
def isAncestorOf (rows : List StructRow) (a b : Int) : Bool :=
  a != b &&
    rows.any fun pa =>
      pa.elementId == a &&
        rows.any fun pb =>
          pb.elementId == b && pb.structureId == pa.structureId &&
            pa.lft < pb.lft && pb.rgt < pa.rgt

/-- Embedding of `resolveFixedCategories` (`src/db/queries/categories.ts`):
returns the selected ids with every id that is an ancestor of another
selected id removed.  The two early returns mirror the source; the SQL
query is embedded as the decidable predicate `isAncestorOf` evaluated
over the `craft_structureelements` rows. -/
def resolveFixedCategories (rows : List StructRow) (categoryIds : List Int) :
    List Int :=
  if categoryIds.isEmpty then []
  else if categoryIds.length == 1 then categoryIds
  else categoryIds.filter fun a => !(categoryIds.any fun b => isAncestorOf rows a b)

theorem resolveFixedCategories_eq_filter (rows : List StructRow)
    (categoryIds : List Int) :
    resolveFixedCategories rows categoryIds =
      categoryIds.filter fun a => !(categoryIds.any fun b => isAncestorOf rows a b) := by
  unfold resolveFixedCategories
  rcases categoryIds with _ | ⟨a, _ | ⟨b, l⟩⟩
  · simp
  · simp [isAncestorOf]
  · simp

theorem resolveFixedCategories_sublist (rows : List StructRow)
    (categoryIds : List Int) :
    (resolveFixedCategories rows categoryIds).Sublist categoryIds := by
  rw [resolveFixedCategories_eq_filter]
  exact List.filter_sublist _

/-- Claim C3: nested-set ancestor stripping returns exactly those
elements of `S` that are not ancestors of another element of `S`; the
result is a sublist of `S` (hence a subset preserving order), and no
element of the result is an ancestor of another element of the
result. -/
theorem C3_resolveFixedCategories_spec (rows : List StructRow) (S : List Int) :
    (resolveFixedCategories rows S =
        S.filter fun a => !(S.any fun b => isAncestorOf rows a b)) ∧
      (resolveFixedCategories rows S).Sublist S ∧
      ∀ x ∈ resolveFixedCategories rows S, ∀ y ∈ resolveFixedCategories rows S,
        isAncestorOf rows x y = false := by
  refine ⟨resolveFixedCategories_eq_filter rows S,
    resolveFixedCategories_sublist rows S, ?_⟩
  intro x hx y hy
  rw [resolveFixedCategories_eq_filter] at hx hy
  have hxmem := List.of_mem_filter hx
  have hymem := List.mem_of_mem_filter hy
  simp only [Bool.not_eq_true', List.any_eq_false] at hxmem
  simpa using hxmem y hymem

/-- Witness for C3 at a concrete input: structure rows making `1` an
ancestor of `2`; stripping `[1, 2, 3]` keeps `[2, 3]`. -/
theorem C3_resolveFixedCategories_spec_witness :
    (resolveFixedCategories
        [⟨1, 7, 1, 10⟩, ⟨2, 7, 2, 3⟩, ⟨3, 9, 1, 2⟩] [1, 2, 3] = [2, 3]) ∧
      isAncestorOf [⟨1, 7, 1, 10⟩, ⟨2, 7, 2, 3⟩, ⟨3, 9, 1, 2⟩] 2 3 = false := by
  have h := C3_resolveFixedCategories_spec
    [⟨1, 7, 1, 10⟩, ⟨2, 7, 2, 3⟩, ⟨3, 9, 1, 2⟩] [1, 2, 3]
  refine ⟨?_, h.2.2 2 (by decide) 3 (by decide)⟩
  · rw [h.1]
    decide

/-- Database oracle for the filter chain: one function per SQL primitive
called by `traceProductsFilterChain`.  `structureRows` stands for the
`craft_structureelements` table read by `resolveFixedCategories`; the
other fields model `extractRegionPostcodes`, `findProductsByPostcodes`,
`findProductsByRegionRelation`, `findProductsByAndRelations`
(`src/db/queries/{regions,relations}.ts`) and the title map built by
`getProductTitles` (`titles.get(id) ?? ""`). -/
structure Db where
  structureRows : List StructRow
  extractRegionPostcodes : List Int → List String
  findProductsByPostcodes : List String → List Int
  findProductsByRegionRelation : List Int → List Int
  findProductsByAndRelations : List (String × List Int) → List Int
  productTitle : Int → Option String

/-- Localized title used by the sort step: `titles.get(a) ?? ""`. -/
def titleOf (db : Db) (a : Int) : String :=
  (db.productTitle a).getD ""

/-- Embedding of the `checkTarget` closure in `traceProductsFilterChain`
(`src/db/filter-chain.ts` lines 40–42): `null` when no targets were
supplied, otherwise whether some id of the step's product list is a
target. -/
def checkTarget (targets ids : List Int) : Option Bool :=
  if targets.isEmpty then none
  else some (ids.any fun i => targets.contains i)

theorem checkTarget_spec (targets ids : List Int) :
    (checkTarget targets ids = none ↔ targets = []) ∧
      (checkTarget targets ids = some true ↔
        targets ≠ [] ∧ ∃ t ∈ targets, t ∈ ids) ∧
      (checkTarget targets ids = some false ↔
        targets ≠ [] ∧ ∀ t ∈ targets, t ∉ ids) := by
  unfold checkTarget
  rcases targets with _ | ⟨t, ts⟩
  · simp
  · rw [if_neg (by simp)]
    have hany : ((ids.any fun i => (t :: ts).contains i) = true) ↔
        ∃ x ∈ t :: ts, x ∈ ids := by
      simp only [List.any_eq_true, List.contains, List.elem_eq_mem,
        decide_eq_true_eq]
      exact ⟨fun ⟨i, hi, hm⟩ => ⟨i, hm, hi⟩, fun ⟨x, hx, hxi⟩ => ⟨x, hxi, hx⟩⟩
    refine ⟨by simp, ?_, ?_⟩
    · constructor
      · intro h
        exact ⟨by simp, hany.mp (Option.some.inj h)⟩
      · rintro ⟨-, hex⟩
        rw [hany.mpr hex]
    · constructor
      · intro h
        refine ⟨by simp, ?_⟩
        intro x hx hxin
        have hfalse := Option.some.inj h
        rw [hany.mpr ⟨x, hx, hxin⟩] at hfalse
        exact Bool.noConfusion hfalse
      · rintro ⟨-, hall⟩
        have : ((ids.any fun i => (t :: ts).contains i) = true) → False := by
          intro h
          obtain ⟨x, hx, hxi⟩ := hany.mp h
          exact hall x hx hxi
        rw [Bool.eq_false_iff.mpr fun h => this h]

/-- Insertion-order deduplication, the embedding of
`[...new Set(list)]`: keeps the first occurrence of each id. -/
def jsDedupAux (seen : List Int) : List Int → List Int
  | [] => []
  | a :: rest =>
    if seen.contains a then jsDedupAux seen rest
    else a :: jsDedupAux (a :: seen) rest

/-- Spread of a JavaScript `Set` built from a list. -/
def jsDedup (l : List Int) : List Int :=
  jsDedupAux [] l

/-- Component config extraction at the top of `traceProductsFilterChain`:
relation lists read with `?? []`, scalars read by `extractScalar` with
their defaults (`limit` 3, `order` "alphabetically", `style` null,
`layout` "grid"). -/
def extractConfig (block : BlockData) : ComponentConfig where
  categories := block.includeCategories
  regions := block.includeRegions
  tiers := block.includeTiers
  taxonomy := block.includeTaxonomy
  explicitProducts := block.products ++ block.includeProducts
  excludeProducts := block.excludeProducts
  limit := block.fieldValues.limitVal.getD 3
  order := block.fieldValues.orderVal.getD "alphabetically"
  style := block.fieldValues.styleVal
  layout := block.fieldValues.layoutVal.getD "grid"

/-- Step 1 input: `categoryRels.map(c => c.id)`. -/
def chainCategoryIds (block : BlockData) : List Int :=
  block.includeCategories.map fun c => c.id

/-- Step 1: `resolveFixedCategories` over the selected categories. -/
def chainFixedCategoryIds (db : Db) (block : BlockData) : List Int :=
  resolveFixedCategories db.structureRows (chainCategoryIds block)

/-- Step 2 input: `regionRels.map(r => r.id)`. -/
def chainRegionIds (block : BlockData) : List Int :=
  block.includeRegions.map fun r => r.id

/-- Step 2: `resolveFixedCategories` over the selected regions. -/
def chainFixedRegionIds (db : Db) (block : BlockData) : List Int :=
  resolveFixedCategories db.structureRows (chainRegionIds block)

/-- Step 3b input: `taxonomyRels.map(t => t.id)`. -/
def chainTaxonomyIds (block : BlockData) : List Int :=
  block.includeTaxonomy.map fun t => t.id

/-- Step 3b: `resolveFixedCategories` over the selected taxonomy terms. -/
def chainFixedTaxonomyIds (db : Db) (block : BlockData) : List Int :=
  resolveFixedCategories db.structureRows (chainTaxonomyIds block)

/-- Step 3: products in the selected regions — the union (first
occurrence order, deduplicated) of the postcode search and the direct
relation lookup, or `[]` when no regions survived step 2. -/
def chainProductsInRegionIds (db : Db) (block : BlockData) : List Int :=
  if (chainFixedRegionIds db block).isEmpty then []
  else
    jsDedup
      (db.findProductsByPostcodes
          (db.extractRegionPostcodes (chainFixedRegionIds db block)) ++
        db.findProductsByRegionRelation (chainFixedRegionIds db block))

/-- Tier ids are used as selected (no ancestor stripping for tiers). -/
def chainTierIds (block : BlockData) : List Int :=
  block.includeTiers.map fun t => t.id

/-- Step 4: the `relationSets` list (categories, tiers, taxonomy — each
included only when non-empty, in that order). -/
def chainRelationSets (db : Db) (block : BlockData) : List (String × List Int) :=
  (if (chainFixedCategoryIds db block).isEmpty then []
    else [("categories", chainFixedCategoryIds db block)]) ++
    (if (chainTierIds block).isEmpty then []
      else [("tiers", chainTierIds block)]) ++
    (if (chainFixedTaxonomyIds db block).isEmpty then []
      else [("taxonomy", chainFixedTaxonomyIds db block)])

/-- Step 5: the main query — scope to region products, intersect with the
AND relation query, or use the AND query alone; empty when no filter is
active. -/
def chainQueryResults (db : Db) (block : BlockData) : List Int :=
  if !(chainProductsInRegionIds db block).isEmpty then
    if !(chainRelationSets db block).isEmpty then
      (chainProductsInRegionIds db block).filter fun id =>
        (db.findProductsByAndRelations (chainRelationSets db block)).contains id
    else chainProductsInRegionIds db block
  else if !(chainRelationSets db block).isEmpty then
    db.findProductsByAndRelations (chainRelationSets db block)
  else []

/-- Explicit products: `block.relations.products ++ includeProducts`,
mapped to ids. -/
def chainExplicitIds (block : BlockData) : List Int :=
  (block.products ++ block.includeProducts).map fun p => p.id

/-- Step 6: merge with explicit products — union when a filter was
active, explicit products alone otherwise. -/
def chainMergedIds (db : Db) (block : BlockData) : List Int :=
  if !(chainProductsInRegionIds db block).isEmpty ∨
      !(chainRelationSets db block).isEmpty then
    jsDedup (chainQueryResults db block ++ chainExplicitIds block)
  else chainExplicitIds block

/-- Exclusion ids (`new Set(excludeProducts.map(p => p.id))`,
deduplicated in first-occurrence order). -/
def chainExcludeIds (block : BlockData) : List Int :=
  jsDedup (block.excludeProducts.map fun p => p.id)

/-- Step 7: apply excludes. -/
def chainAfterExcludes (db : Db) (block : BlockData) : List Int :=
  if !(chainExcludeIds block).isEmpty then
    (chainMergedIds db block).filter fun id => !(chainExcludeIds block).contains id
  else chainMergedIds db block

/-- Step 8: the sort.  JavaScript `Array.prototype.sort` with the
comparator `titles.get(a).localeCompare(titles.get(b))` is a stable sort
by title; `localeCompare` is modelled as the code-point order on the
title strings, and the stable sort as `List.insertionSort` (stable sorts
agree on any consistent comparator).  Orders other than
"alphabetically" leave the list as it is. -/
def chainSortedIds (db : Db) (block : BlockData) : List Int :=
  if (extractConfig block).order == "alphabetically" then
    (chainAfterExcludes db block).insertionSort fun a b => titleOf db a ≤ titleOf db b
  else chainAfterExcludes db block

/-- Step 9: `sorted.slice(0, config.limit)`. -/
def chainFinalIds (db : Db) (block : BlockData) : List Int :=
  (chainSortedIds db block).take (extractConfig block).limit

/-- Result of a filter-chain run. -/
structure ChainResult where
  config : ComponentConfig
  trace : List TraceStep
deriving DecidableEq, Repr

/-- Step 1 trace entry (resolve_categories): configuration readout,
`productIds` empty and `targetPresent` hard-coded null. -/
def chainStepCategories (db : Db) (block : BlockData) : TraceStep :=
  let nCat := (chainCategoryIds block).length
  let mCat := (chainFixedCategoryIds db block).length
  { step := .resolve_categories
    description :=
      if (chainCategoryIds block).isEmpty then
        "No categories selected - skipping category filter"
      else
        s!"Selected {nCat} categories, resolved to {mCat} after stripping ancestors (keeping most specific)"
    count := mCat
    productIds := []
    targetPresent := none }

/-- Step 2 trace entry (resolve_regions): configuration readout,
`productIds` empty and `targetPresent` hard-coded null. -/
def chainStepRegions (db : Db) (block : BlockData) : TraceStep :=
  let nReg := (chainRegionIds block).length
  let mReg := (chainFixedRegionIds db block).length
  { step := .resolve_regions
    description :=
      if (chainRegionIds block).isEmpty then
        "No regions selected - skipping region filter"
      else
        s!"Selected {nReg} regions, resolved to {mReg} after stripping ancestors (keeping most specific)"
    count := mReg
    productIds := []
    targetPresent := none }

/-- Step 3 trace entry (region_to_products): when regions resolved
non-empty, the region product set with `checkTarget`; otherwise the
skip entry with `targetPresent` hard-coded null. -/
def chainStepRegionProducts (db : Db) (block : BlockData)
    (targets : List Int) : TraceStep :=
  let postcodes := db.extractRegionPostcodes (chainFixedRegionIds db block)
  let nByPostcode := (db.findProductsByPostcodes postcodes).length
  let nPostcodes := postcodes.length
  let nByRelation :=
    (db.findProductsByRegionRelation (chainFixedRegionIds db block)).length
  let nInRegion := (chainProductsInRegionIds db block).length
  if (chainFixedRegionIds db block).isEmpty then
    { step := .region_to_products
      description := "No regions selected - no region filtering applied"
      count := 0
      productIds := []
      targetPresent := none }
  else
    { step := .region_to_products
      description :=
        s!"Found {nInRegion} products in selected regions ({nByPostcode} by postcode match from {nPostcodes} postcodes, {nByRelation} by direct relation)"
      count := nInRegion
      productIds := chainProductsInRegionIds db block
      targetPresent := checkTarget targets (chainProductsInRegionIds db block) }

/-- Step 3b trace entry (resolve_taxonomy), pushed only when taxonomy
terms are selected. -/
def chainStepTaxonomy (db : Db) (block : BlockData) : TraceStep :=
  let nTax := (chainTaxonomyIds block).length
  let mTax := (chainFixedTaxonomyIds db block).length
  { step := .resolve_taxonomy
    description :=
      s!"Selected {nTax} taxonomy terms, resolved to {mTax} after stripping ancestors (keeping most specific)"
    count := mTax
    productIds := []
    targetPresent := none }

/-- Step 5 trace entry (main_query). -/
def chainStepMainQuery (db : Db) (block : BlockData)
    (targets : List Int) : TraceStep :=
  let filterNames := String.intercalate " AND "
    ((chainRelationSets db block).map fun s => s.1)
  let nQuery := (chainQueryResults db block).length
  let nInRegion := (chainProductsInRegionIds db block).length
  { step := .main_query
    description :=
      if !(chainRelationSets db block).isEmpty then
        s!"Applied {filterNames} filter" ++
          (if !(chainProductsInRegionIds db block).isEmpty then
            " within region products" else "") ++
          s!" - {nQuery} products match"
      else if !(chainProductsInRegionIds db block).isEmpty then
        s!"Using {nInRegion} region-matched products (no category/tier filter)"
      else "No region, category, or tier filters - using explicit products only"
    count := nQuery
    productIds := chainQueryResults db block
    targetPresent := checkTarget targets (chainQueryResults db block) }

/-- Step 6 trace entry (merge_explicit). -/
def chainStepMerge (db : Db) (block : BlockData)
    (targets : List Int) : TraceStep :=
  let nExplicit := (chainExplicitIds block).length
  let nQuery := (chainQueryResults db block).length
  let nMerged := (chainMergedIds db block).length
  { step := .merge_explicit
    description :=
      if !(chainExplicitIds block).isEmpty then
        s!"Merged {nExplicit} explicitly selected products with {nQuery} query results = {nMerged} total"
      else s!"No explicitly selected products. {nMerged} products from query."
    count := nMerged
    productIds := chainMergedIds db block
    targetPresent := checkTarget targets (chainMergedIds db block) }

/-- Step 7 trace entry (apply_excludes). -/
def chainStepExcludes (db : Db) (block : BlockData)
    (targets : List Int) : TraceStep :=
  let nExcluded := (chainExcludeIds block).length
  let nRemaining := (chainAfterExcludes db block).length
  { step := .apply_excludes
    description :=
      if !(chainExcludeIds block).isEmpty then
        s!"Excluded {nExcluded} products - {nRemaining} remaining"
      else s!"No exclusions configured - {nRemaining} products remain"
    count := nRemaining
    productIds := chainAfterExcludes db block
    targetPresent := checkTarget targets (chainAfterExcludes db block) }

/-- Step 8 trace entry (sort). -/
def chainStepSort (db : Db) (block : BlockData)
    (targets : List Int) : TraceStep :=
  let nSorted := (chainSortedIds db block).length
  let sortDescription :=
    if (extractConfig block).order == "alphabetically" then
      "Sorted alphabetically by title"
    else if (extractConfig block).order == "eventDate" then
      "Sorted by next event date (ascending) - DB ordering applied"
    else "Random shuffle - order changes on every page load"
  { step := .sort
    description := s!"{sortDescription} ({nSorted} products)"
    count := nSorted
    productIds := chainSortedIds db block
    targetPresent := checkTarget targets (chainSortedIds db block) }

/-- Step 9 trace entry (limit). -/
def chainStepLimit (db : Db) (block : BlockData)
    (targets : List Int) : TraceStep :=
  let nSorted := (chainSortedIds db block).length
  let nFinal := (chainFinalIds db block).length
  let limitVal := (extractConfig block).limit
  { step := .limit
    description :=
      if nSorted > limitVal then
        s!"Sliced to limit of {limitVal} (from {nSorted} products)"
      else s!"All {nSorted} products shown (within limit of {limitVal})"
    count := nFinal
    productIds := chainFinalIds db block
    targetPresent := checkTarget targets (chainFinalIds db block) }

/-- Embedding of `traceProductsFilterChain` (`src/db/filter-chain.ts`):
the nine-step Products filter chain, emitting one trace step per stage.
The `resolve_taxonomy` step is pushed only when taxonomy terms are
selected, exactly as in the source.  The free-form `details` payloads
are elided. -/
def traceProductsFilterChain (db : Db) (block : BlockData)
    (targetProductIds : List Int) : ChainResult :=
  { config := extractConfig block
    trace :=
      [chainStepCategories db block, chainStepRegions db block,
          chainStepRegionProducts db block targetProductIds] ++
        (if block.includeTaxonomy.isEmpty then []
          else [chainStepTaxonomy db block]) ++
        [chainStepMainQuery db block targetProductIds,
          chainStepMerge db block targetProductIds,
          chainStepExcludes db block targetProductIds,
          chainStepSort db block targetProductIds,
          chainStepLimit db block targetProductIds] }

/-- The trace step names whose `productIds` is the surviving product set
and whose `targetPresent` is computed by `checkTarget` on every run. -/
def survivorStepNames : List TraceStepName :=
  [.main_query, .merge_explicit, .apply_excludes, .sort, .limit]

theorem chainStepRegionProducts_step (db : Db) (block : BlockData)
    (targets : List Int) :
    (chainStepRegionProducts db block targets).step = .region_to_products := by
  unfold chainStepRegionProducts
  split <;> rfl

theorem chain_step_names (db : Db) (block : BlockData) (targets : List Int) :
    (chainStepCategories db block).step = .resolve_categories ∧
      (chainStepRegions db block).step = .resolve_regions ∧
      (chainStepTaxonomy db block).step = .resolve_taxonomy ∧
      (chainStepMainQuery db block targets).step = .main_query ∧
      (chainStepMerge db block targets).step = .merge_explicit ∧
      (chainStepExcludes db block targets).step = .apply_excludes ∧
      (chainStepSort db block targets).step = .sort ∧
      (chainStepLimit db block targets).step = .limit :=
  ⟨rfl, rfl, rfl, rfl, rfl, rfl, rfl, rfl⟩

theorem mem_chain_trace (db : Db) (block : BlockData) (targets : List Int)
    (s : TraceStep) :
    s ∈ (traceProductsFilterChain db block targets).trace ↔
      s = chainStepCategories db block ∨ s = chainStepRegions db block ∨
        s = chainStepRegionProducts db block targets ∨
        (¬block.includeTaxonomy.isEmpty = true ∧
          s = chainStepTaxonomy db block) ∨
        s = chainStepMainQuery db block targets ∨
        s = chainStepMerge db block targets ∨
        s = chainStepExcludes db block targets ∨
        s = chainStepSort db block targets ∨
        s = chainStepLimit db block targets := by
  unfold traceProductsFilterChain
  by_cases htax : block.includeTaxonomy.isEmpty <;> simp [htax]

/-- Claim C6 (amended): every run of the products filter chain produces
the trace steps in the fixed order resolve_categories, resolve_regions,
region_to_products, resolve_taxonomy, main_query, merge_explicit,
apply_excludes, sort, limit — except that the resolve_taxonomy step is
emitted only when the block has taxonomy terms selected; with no
taxonomy terms the trace has the remaining eight steps in the same
order. -/
theorem C6_trace_step_order (db : Db) (block : BlockData)
    (targets : List Int) :
    (traceProductsFilterChain db block targets).trace.map (fun s => s.step) =
      if block.includeTaxonomy.isEmpty then
        [.resolve_categories, .resolve_regions, .region_to_products,
          .main_query, .merge_explicit, .apply_excludes, .sort, .limit]
      else
        [.resolve_categories, .resolve_regions, .region_to_products,
          .resolve_taxonomy, .main_query, .merge_explicit, .apply_excludes,
          .sort, .limit] := by
  unfold traceProductsFilterChain
  by_cases htax : block.includeTaxonomy.isEmpty <;>
    simp [htax, chainStepRegionProducts_step, chainStepCategories,
      chainStepRegions, chainStepTaxonomy, chainStepMainQuery, chainStepMerge,
      chainStepExcludes, chainStepSort, chainStepLimit]

/-- Counterexample for claim C6 as stated: a block with no taxonomy
terms selected produces an eight-step trace without resolve_taxonomy,
not the fixed nine-step sequence. -/
theorem C6_counterexample :
    ((traceProductsFilterChain
          ⟨[], fun _ => [], fun _ => [], fun _ => [], fun _ => [],
            fun _ => none⟩
          ⟨[], [], [], [], [⟨7, "A"⟩], [], [],
            ⟨none, some "random", none, none⟩⟩ []).trace.map
        fun s => s.step) =
        [.resolve_categories, .resolve_regions, .region_to_products,
          .main_query, .merge_explicit, .apply_excludes, .sort, .limit] ∧
      ((traceProductsFilterChain
          ⟨[], fun _ => [], fun _ => [], fun _ => [], fun _ => [],
            fun _ => none⟩
          ⟨[], [], [], [], [⟨7, "A"⟩], [], [],
            ⟨none, some "random", none, none⟩⟩ []).trace.map
        fun s => s.step) ≠
        [.resolve_categories, .resolve_regions, .region_to_products,
          .resolve_taxonomy, .main_query, .merge_explicit, .apply_excludes,
          .sort, .limit] := by
  decide

/-- Claim C1: in every run of the products filter chain, (a) the limit
step, when targets were supplied, has `targetPresent = true` iff some
target id appears in its `productIds`; (b) every step whose
`productIds` is the surviving product set — main_query, merge_explicit,
apply_excludes, sort, limit, and region_to_products when regions
resolved non-empty — has `targetPresent` true iff some target id
appears in its `productIds`, false iff targets exist and none appear,
and null exactly when no targets were supplied. -/
theorem C1_targetPresent_spec (db : Db) (block : BlockData)
    (targets : List Int) :
    (∀ s ∈ (traceProductsFilterChain db block targets).trace,
        s.step = .limit → targets ≠ [] →
          (s.targetPresent = some true ↔ ∃ t ∈ targets, t ∈ s.productIds)) ∧
      (∀ s ∈ (traceProductsFilterChain db block targets).trace,
        (s.step ∈ survivorStepNames ∨
            (s.step = .region_to_products ∧
              ¬(chainFixedRegionIds db block).isEmpty = true)) →
          ((s.targetPresent = none ↔ targets = []) ∧
            (s.targetPresent = some true ↔
              targets ≠ [] ∧ ∃ t ∈ targets, t ∈ s.productIds) ∧
            (s.targetPresent = some false ↔
              targets ≠ [] ∧ ∀ t ∈ targets, t ∉ s.productIds))) := by
  constructor
  · intro s hs hstep hne
    rw [mem_chain_trace] at hs
    rcases hs with rfl | rfl | rfl | ⟨-, rfl⟩ | rfl | rfl | rfl | rfl | rfl
    · rw [(chain_step_names db block targets).1] at hstep
      exact absurd hstep (by decide)
    · rw [(chain_step_names db block targets).2.1] at hstep
      exact absurd hstep (by decide)
    · rw [chainStepRegionProducts_step] at hstep
      exact absurd hstep (by decide)
    · rw [(chain_step_names db block targets).2.2.1] at hstep
      exact absurd hstep (by decide)
    · rw [(chain_step_names db block targets).2.2.2.1] at hstep
      exact absurd hstep (by decide)
    · rw [(chain_step_names db block targets).2.2.2.2.1] at hstep
      exact absurd hstep (by decide)
    · rw [(chain_step_names db block targets).2.2.2.2.2.1] at hstep
      exact absurd hstep (by decide)
    · rw [(chain_step_names db block targets).2.2.2.2.2.2.1] at hstep
      exact absurd hstep (by decide)
    · have h := (checkTarget_spec targets (chainFinalIds db block)).2.1
      exact ⟨fun hx => (h.mp hx).2, fun hx => h.mpr ⟨hne, hx⟩⟩
  · intro s hs hcond
    rw [mem_chain_trace] at hs
    have hnames := chain_step_names db block targets
    rcases hs with rfl | rfl | rfl | ⟨-, rfl⟩ | rfl | rfl | rfl | rfl | rfl
    · rw [hnames.1] at hcond
      rcases hcond with h | ⟨h, -⟩ <;> exact absurd h (by decide)
    · rw [hnames.2.1] at hcond
      rcases hcond with h | ⟨h, -⟩ <;> exact absurd h (by decide)
    · by_cases h3 : (chainFixedRegionIds db block).isEmpty
      · rw [chainStepRegionProducts_step] at hcond
        rcases hcond with h | ⟨-, hne⟩
        · exact absurd h (by decide)
        · exact absurd h3 hne
      · simp only [chainStepRegionProducts, if_neg h3]
        exact checkTarget_spec targets _
    · rw [hnames.2.2.1] at hcond
      rcases hcond with h | ⟨h, -⟩ <;> exact absurd h (by decide)
    · exact checkTarget_spec targets _
    · exact checkTarget_spec targets _
    · exact checkTarget_spec targets _
    · exact checkTarget_spec targets _
    · exact checkTarget_spec targets _

/-- Trivial database oracle used by concrete runs: empty structure
table, empty query results, no titles. -/
def dbTriv : Db :=
  ⟨[], fun _ => [], fun _ => [], fun _ => [], fun _ => [], fun _ => none⟩

/-- Concrete block used by the C1 witness: two explicit products, no
filters, order "random", default limit. -/
def blockWitnessC1 : BlockData :=
  ⟨[], [], [], [], [⟨1, "A"⟩, ⟨5, "B"⟩], [], [],
    ⟨none, some "random", none, none⟩⟩

/-- Witness for C1: on a concrete run with target id 1, the limit step
is in the trace and its `targetPresent` is `true`, obtained from
`C1_targetPresent_spec` with every hypothesis discharged by
evaluation. -/
theorem C1_targetPresent_spec_witness :
    chainStepLimit dbTriv blockWitnessC1 [1] ∈
        (traceProductsFilterChain dbTriv blockWitnessC1 [1]).trace ∧
      (chainStepLimit dbTriv blockWitnessC1 [1]).targetPresent = some true := by
  have hmem : chainStepLimit dbTriv blockWitnessC1 [1] ∈
      (traceProductsFilterChain dbTriv blockWitnessC1 [1]).trace := by
    rw [mem_chain_trace]
    decide
  have h := (C1_targetPresent_spec dbTriv blockWitnessC1 [1]).1
    (chainStepLimit dbTriv blockWitnessC1 [1]) hmem (by decide) (by decide)
  exact ⟨hmem, h.mpr ⟨1, by decide, by decide⟩⟩

theorem chain_trace_targetPresent_of_no_targets (db : Db) (block : BlockData) :
    ∀ s ∈ (traceProductsFilterChain db block []).trace,
      s.targetPresent = none := by
  intro s hs
  rw [mem_chain_trace] at hs
  rcases hs with rfl | rfl | rfl | ⟨-, rfl⟩ | rfl | rfl | rfl | rfl | rfl
  · rfl
  · rfl
  · unfold chainStepRegionProducts
    split <;> rfl
  · rfl
  · rfl
  · rfl
  · rfl
  · rfl
  · rfl

/-- Result of the orchestrator's data-resolution phase, restricted to
the fields the block tracer and the generator consume (`ResolvedData`
in `src/index.ts`). -/
structure ResolvedData where
  trace : List TraceStep
  targetProductIds : List Int
deriving DecidableEq, Repr

/-- Modelled from the spec: the block tracer dispatch (`traceBlock` in
`src/db/filter-chains/dispatch.ts`) is not among the sources at hand.
For a "products" block it runs `traceProductsFilterChain` (spec §2
dispatch, matching the import in `src/index.ts`); per spec §4.5 any
non-"products" block yields a single `block_config` step summarising
the configuration, with no filter semantics — its `targetPresent` is
the data-model null of a configuration readout. -/
def traceBlock (db : Db) (blockType : String) (block : BlockData)
    (targetProductIds : List Int) : List TraceStep :=
  if blockType == "products" then
    (traceProductsFilterChain db block targetProductIds).trace
  else
    [{ step := .block_config
       description := "Component configuration"
       count := 0
       productIds := []
       targetPresent := none }]

/-- Embedding of the page-component branch of `resolveData`
(`src/index.ts`): when no page URI is available the trace is empty; when
no block matches, a single `block_config` step with null
`targetPresent` is emitted; otherwise the block at
`min(componentIndex, blocks.length - 1)` is traced **with an empty
target list** (`traceBlock(db, schema, block, [])`), while the ids
resolved from the question's product names
(`resolveProductsByName`) are returned separately as
`targetProductIds` for the explanation generator. -/
def resolveDataPageComponent (db : Db) (blockType : String)
    (pageUri : Option String) (blocks : List BlockData)
    (componentIndex : Nat) (resolvedNameIds : List Int) : ResolvedData :=
  match pageUri with
  | none => { trace := [], targetProductIds := [] }
  | some _ =>
    match blocks with
    | [] =>
      { trace :=
          [{ step := .block_config
             description := "No matching component found on this page"
             count := 0
             productIds := []
             targetPresent := none }]
        targetProductIds := [] }
    | b :: bs =>
      let block := (b :: bs).getD (min componentIndex bs.length) b
      { trace := traceBlock db blockType block []
        targetProductIds := resolvedNameIds }

/-- Claim C2: in the page-component domain the orchestrator invokes the
block tracer with an empty target-product list — the ids resolved from
the question's product names only populate `targetProductIds` for the
generator — so every trace step returned to the client has
`targetPresent = null`, even when product names resolved to ids; in
particular the trace does not depend on the resolved ids at all. -/
theorem C2_page_component_trace_null (db : Db) (blockType : String)
    (pageUri : Option String) (blocks : List BlockData)
    (componentIndex : Nat) (resolvedNameIds : List Int) :
    (∀ s ∈ (resolveDataPageComponent db blockType pageUri blocks
        componentIndex resolvedNameIds).trace, s.targetPresent = none) ∧
      (resolveDataPageComponent db blockType pageUri blocks componentIndex
          resolvedNameIds).trace =
        (resolveDataPageComponent db blockType pageUri blocks componentIndex
          []).trace := by
  constructor
  · intro s hs
    unfold resolveDataPageComponent at hs
    rcases pageUri with - | uri
    · simp at hs
    · rcases blocks with - | ⟨b, bs⟩
      · simp at hs
        rw [hs]
      · simp only at hs
        unfold traceBlock at hs
        by_cases hbt : (blockType == "products") = true
        · rw [if_pos hbt] at hs
          exact chain_trace_targetPresent_of_no_targets db _ s hs
        · rw [if_neg hbt] at hs
          simp at hs
          rw [hs]
  · unfold resolveDataPageComponent
    rcases pageUri with - | uri
    · rfl
    · rcases blocks with - | ⟨b, bs⟩ <;> rfl

/-- Witness for C2 at a concrete input: one products block, product
names resolved to id 9; the merge step of the returned trace has
`targetPresent = null`. -/
theorem C2_page_component_trace_null_witness :
    chainStepMerge dbTriv blockWitnessC1 [] ∈
        (resolveDataPageComponent dbTriv "products" (some "/stay")
          [blockWitnessC1] 0 [9]).trace ∧
      (chainStepMerge dbTriv blockWitnessC1 []).targetPresent = none := by
  have hmem : chainStepMerge dbTriv blockWitnessC1 [] ∈
      (resolveDataPageComponent dbTriv "products" (some "/stay")
        [blockWitnessC1] 0 [9]).trace := by decide
  exact ⟨hmem,
    (C2_page_component_trace_null dbTriv "products" (some "/stay")
        [blockWitnessC1] 0 [9]).1 _ hmem⟩

/-- Claim C8 (amended): in the sort step with order "alphabetically",
the products are a permutation of the pre-sort set ordered by the
localized title comparison, and products with equal titles retain their
input order — JavaScript `Array.prototype.sort` is stable — rather than
being reordered by id. -/
theorem C8_sort_alphabetical_stable (db : Db) (block : BlockData)
    (targets : List Int) :
    ∀ s ∈ (traceProductsFilterChain db block targets).trace,
      s.step = .sort → (extractConfig block).order = "alphabetically" →
        (s.productIds.Perm (chainAfterExcludes db block) ∧
          s.productIds.Sorted (fun a b => titleOf db a ≤ titleOf db b) ∧
          ∀ a b : Int, [a, b].Sublist (chainAfterExcludes db block) →
            titleOf db a = titleOf db b → [a, b].Sublist s.productIds) := by
  intro s hs hstep horder
  have hnames := chain_step_names db block targets
  rw [mem_chain_trace] at hs
  rcases hs with rfl | rfl | rfl | ⟨-, rfl⟩ | rfl | rfl | rfl | rfl | rfl
  · rw [hnames.1] at hstep
    exact absurd hstep (by decide)
  · rw [hnames.2.1] at hstep
    exact absurd hstep (by decide)
  · rw [chainStepRegionProducts_step] at hstep
    exact absurd hstep (by decide)
  · rw [hnames.2.2.1] at hstep
    exact absurd hstep (by decide)
  · rw [hnames.2.2.2.1] at hstep
    exact absurd hstep (by decide)
  · rw [hnames.2.2.2.2.1] at hstep
    exact absurd hstep (by decide)
  · rw [hnames.2.2.2.2.2.1] at hstep
    exact absurd hstep (by decide)
  · have hids : (chainStepSort db block targets).productIds =
        (chainAfterExcludes db block).insertionSort
          fun a b => titleOf db a ≤ titleOf db b := by
      show chainSortedIds db block = _
      unfold chainSortedIds
      rw [horder]
      simp
    rw [hids]
    haveI : IsTotal Int fun a b => titleOf db a ≤ titleOf db b :=
      ⟨fun a b => le_total (titleOf db a) (titleOf db b)⟩
    haveI : IsTrans Int fun a b => titleOf db a ≤ titleOf db b :=
      ⟨fun _ _ _ hab hbc => le_trans hab hbc⟩
    refine ⟨List.perm_insertionSort _ _, List.sorted_insertionSort _ _, ?_⟩
    intro a b hsub heq
    exact List.pair_sublist_insertionSort (le_of_eq heq) hsub
  · rw [hnames.2.2.2.2.2.2.2] at hstep
    exact absurd hstep (by decide)

/-- Database oracle for the C8 counterexample: products 5 and 2 share
the title "Same". -/
def dbEqualTitles : Db :=
  ⟨[], fun _ => [], fun _ => [], fun _ => [], fun _ => [],
    fun i => if i == 2 || i == 5 then some "Same" else none⟩

/-- Block for the C8 counterexample: explicit products `[5, 2]` (in
that order), no filters, default order "alphabetically". -/
def blockEqualTitles : BlockData :=
  ⟨[], [], [], [], [⟨5, "Same"⟩, ⟨2, "Same"⟩], [], [],
    ⟨none, none, none, none⟩⟩

/-- Counterexample for claim C8 as stated: two products with equal
titles enter the sort step as `[5, 2]` and leave it as `[5, 2]` — input
order preserved — not as `[2, 5]`, so id ascending is not the secondary
sort key. -/
theorem C8_counterexample :
    (chainStepSort dbEqualTitles blockEqualTitles []).productIds = [5, 2] ∧
      chainStepSort dbEqualTitles blockEqualTitles [] ∈
        (traceProductsFilterChain dbEqualTitles blockEqualTitles []).trace ∧
      chainAfterExcludes dbEqualTitles blockEqualTitles = [5, 2] ∧
      titleOf dbEqualTitles 5 = titleOf dbEqualTitles 2 ∧
      ([5, 2] : List Int) ≠ [2, 5] := by
  have hsorted : chainSortedIds dbEqualTitles blockEqualTitles = [5, 2] := by
    unfold chainSortedIds
    rw [if_pos (by decide),
      show chainAfterExcludes dbEqualTitles blockEqualTitles = [5, 2] by decide]
    refine List.Sorted.insertionSort_eq ?_
    simp only [List.sorted_cons, List.mem_singleton, List.sorted_singleton,
      forall_eq, and_true]
    refine ⟨le_of_eq
      (show titleOf dbEqualTitles 5 = titleOf dbEqualTitles 2 by decide),
      by simp, List.sorted_nil⟩
  refine ⟨hsorted, ?_, by decide, by decide, by decide⟩
  rw [mem_chain_trace]
  exact Or.inr (Or.inr (Or.inr (Or.inr (Or.inr (Or.inr (Or.inr (Or.inl rfl)))))))

/-- Witness for the amended C8: on the concrete equal-title run, the
sort step output is a permutation of the pre-sort set and the
equal-title pair `[5, 2]` keeps its input order. -/
theorem C8_sort_alphabetical_stable_witness :
    (chainStepSort dbEqualTitles blockEqualTitles []).productIds.Perm
        (chainAfterExcludes dbEqualTitles blockEqualTitles) ∧
      ([5, 2] : List Int).Sublist
        (chainStepSort dbEqualTitles blockEqualTitles []).productIds := by
  have hmem : chainStepSort dbEqualTitles blockEqualTitles [] ∈
      (traceProductsFilterChain dbEqualTitles blockEqualTitles []).trace := by
    rw [mem_chain_trace]
    exact Or.inr (Or.inr (Or.inr (Or.inr (Or.inr (Or.inr (Or.inr (Or.inl rfl)))))))
  have h := C8_sort_alphabetical_stable dbEqualTitles blockEqualTitles []
    (chainStepSort dbEqualTitles blockEqualTitles []) hmem (by decide) (by decide)
  exact ⟨h.1, h.2.2 5 2 (by decide) (by decide)⟩

/-- Lowercase ASCII letter test, the `[a-z]` character class. -/
def isLowerAlpha (c : Char) : Bool :=
  'a' ≤ c && c ≤ 'z'

/-- Character class `[a-z0-9_]` of the tenant regex. -/
def isTenantChar (c : Char) : Bool :=
  isLowerAlpha c || c.isDigit || c == '_'

/-- Embedding of the `VALID_TENANT` regex `^[a-z][a-z0-9_]{0,63}$`
(`src/db/connection.ts`): a lowercase letter followed by at most 63
characters from `[a-z0-9_]`. -/
def validTenant (s : String) : Bool :=
  match s.data with
  | [] => false
  | c :: rest => isLowerAlpha c && rest.all isTenantChar && rest.length ≤ 63

/-- Embedding of `validateTenant` (`src/db/connection.ts`): returns the
tenant when it matches the regex, otherwise throws — modelled as
`Except`. -/
def validateTenant (tenant : String) : Except String String :=
  if validTenant tenant then .ok tenant
  else .error ("Invalid tenant name: \"" ++ tenant ++ "\"")

/-- Character class `[a-z0-9_-]` of the origin-value regex. -/
def isOriginChar (c : Char) : Bool :=
  isLowerAlpha c || c.isDigit || c == '_' || c == '-'

/-- Embedding of the origin-value parse in `resolveTenantFromHostname`
(`src/index.ts`): `origin.match(/^([a-z0-9_-]+)\.roamhq\.io$/)`, giving
the captured group.  The value must be a non-empty run of `[a-z0-9_-]`
followed by the literal suffix ".roamhq.io". -/
def parseOriginTenant (origin : String) : Option String :=
  let cs := origin.data
  let n := cs.length
  if n > 10 && cs.drop (n - 10) == ".roamhq.io".data then
    let t := cs.take (n - 10)
    if t.all isOriginChar then some (String.mk t) else none
  else none

/-- Embedding of `resolveTenantFromHostname` (`src/index.ts`): the
`origin:{hostname}` KV read is modelled by its result
`kvOriginValue`; a missing key gives null, a present value is parsed
with the origin regex. -/
def resolveTenantFromHostname (kvOriginValue : Option String) :
    Option String :=
  match kvOriginValue with
  | none => none
  | some v => parseOriginTenant v

/-- Embedding of the tenant-resolution precedence in `resolveData`
(`src/index.ts`): explicit `tenant` field when truthy (a present empty
string is falsy in JavaScript and falls through), else the hostname
lookup, else the process default. -/
def resolveTenant (explicitTenant kvOriginValue : Option String)
    (defaultTenant : String) : String :=
  let fromBody :=
    match explicitTenant with
    | some t => if t.isEmpty then none else some t
    | none => none
  match fromBody with
  | some t => t
  | none =>
    match resolveTenantFromHostname kvOriginValue with
    | some t => t
    | none => defaultTenant

/-- Embedding of `createConnection` (`src/db/connection.ts`) up to the
point where the database prefix is fixed: `validateTenant(tenant ??
env.DEFAULT_TENANT)` runs synchronously before any query can be issued,
so an invalid tenant throws before any SQL is composed. -/
def createConnection (defaultTenant : String) (tenant : Option String) :
    Except String String :=
  validateTenant (tenant.getD defaultTenant)

/-- Counterexample for claim C4 as stated: the origin regex
`^([a-z0-9_-]+)\.roamhq\.io$` is broader than the tenant regex, so
hostname-based resolution can yield "my-tenant", which fails
`^[a-z][a-z0-9_]{0,63}$`. -/
theorem C4_counterexample :
    resolveTenant none (some "my-tenant.roamhq.io") "vicheartland" =
        "my-tenant" ∧
      validTenant "my-tenant" = false := by
  decide

/-- Claim C4 (amended): tenant resolution (explicit field when truthy,
else origin-value parse with the broader regex
`^([a-z0-9_-]+)\.roamhq\.io$`, else the process default) can yield an
identifier that fails the tenant regex `^[a-z][a-z0-9_]{0,63}$`; but
`createConnection` validates the resolved identifier before any SQL is
composed: a database prefix is produced only when the identifier
matches the regex, and a failing identifier raises the invalid-tenant
error instead. -/
theorem C4_tenant_validated_before_sql (explicitTenant kvVal : Option String)
    (defaultT p : String) :
    (createConnection defaultT
        (some (resolveTenant explicitTenant kvVal defaultT)) = .ok p →
      p = resolveTenant explicitTenant kvVal defaultT ∧
        validTenant p = true) ∧
      (validTenant (resolveTenant explicitTenant kvVal defaultT) = false →
        createConnection defaultT
            (some (resolveTenant explicitTenant kvVal defaultT)) =
          .error ("Invalid tenant name: \"" ++
            resolveTenant explicitTenant kvVal defaultT ++ "\"")) := by
  unfold createConnection validateTenant
  simp only [Option.getD_some]
  by_cases h : validTenant (resolveTenant explicitTenant kvVal defaultT) = true
  · rw [if_pos h]
    constructor
    · intro hok
      have := Except.ok.inj hok
      exact ⟨this.symm, this ▸ h⟩
    · intro hfalse
      rw [h] at hfalse
      exact absurd hfalse (by decide)
  · rw [if_neg h]
    constructor
    · intro hok
      exact absurd hok (by simp)
    · intro hf
      rfl

/-- Witness for the amended C4: the hostname-derived tenant "my-tenant"
is rejected by `createConnection` before any SQL is composed. -/
theorem C4_tenant_validated_before_sql_witness :
    createConnection "vicheartland"
        (some (resolveTenant none (some "my-tenant.roamhq.io")
          "vicheartland")) =
      .error "Invalid tenant name: \"my-tenant\"" := by
  have h := (C4_tenant_validated_before_sql none
    (some "my-tenant.roamhq.io") "vicheartland" "unused").2 (by decide)
  rw [show resolveTenant none (some "my-tenant.roamhq.io") "vicheartland" =
    "my-tenant" from by decide] at h
  exact h

/-- Word character test, the `\w` class `[A-Za-z0-9_]` used by the
JavaScript `\b` boundary. -/
def isWordChar (c : Char) : Bool :=
  c.isAlphanum || c == '_'

/-- Decides whether a character list starts with the literal `craft_`. -/
def craftStart : List Char → Bool
  | 'c' :: 'r' :: 'a' :: 'f' :: 't' :: '_' :: _ => true
  | _ => false

/-- Character-level embedding of
`sql.replace(/\bcraft_/g, dbPrefix + ".craft_")`
(`createConnection.query` in `src/db/connection.ts`).  The boolean
argument records whether the previous character was a word character:
`craft_` is rewritten exactly when it is not (the `\b` boundary), and
scanning resumes after the rewritten occurrence. -/
def replaceCraftAux (pre : String) (flag : Bool) : List Char → List Char
  | [] => []
  | c :: rest =>
    if flag = false ∧ craftStart (c :: rest) = true then
      pre.data ++ ('.' :: 'c' :: 'r' :: 'a' :: 'f' :: 't' :: '_' :: List.nil) ++
        replaceCraftAux pre true (rest.drop 5)
    else
      c :: replaceCraftAux pre (isWordChar c) rest
termination_by l => l.length
decreasing_by
  · simp only [List.length_drop, List.length_cons]
    omega
  · simp only [List.length_cons]
    omega

/-- Tenant prefixing of one SQL string: every `craft_` table reference
at a word boundary becomes `{dbPrefix}.craft_`. -/
def prefixSql (dbPre : String) (sql : String) : String :=
  String.mk (replaceCraftAux dbPre false sql.data)

/-- Decides that a character list contains no boundary occurrence of
`craft_` (given whether the previous character was a word
character). -/
def noCraftBoundary : Bool → List Char → Bool
  | _, [] => true
  | flag, c :: rest =>
    (flag || !craftStart (c :: rest)) && noCraftBoundary (isWordChar c) rest

theorem replaceCraftAux_eq_self (pre : String) :
    ∀ (l : List Char) (flag : Bool), noCraftBoundary flag l = true →
      replaceCraftAux pre flag l = l := by
  intro l
  induction l with
  | nil =>
    intro flag h
    rw [replaceCraftAux.eq_def]
  | cons c rest ih =>
    intro flag h
    rw [noCraftBoundary] at h
    have h1 := (Bool.and_eq_true _ _).mp h
    rw [replaceCraftAux.eq_def]
    dsimp only
    rw [if_neg]
    · congr 1
      exact ih _ h1.2
    · rintro ⟨hflag, hcs⟩
      rw [hflag, hcs] at h1
      simp at h1

/-- SQL text of `lookupAtdwByProductId` (`src/db/queries/atdw.ts`),
whitespace normalised: the ATDW import table `roam_atdw_products`
carries no `craft_` identifier. -/
def lookupAtdwByProductIdSql : String :=
  "SELECT * FROM roam_atdw_products WHERE productId = ? LIMIT 1"

/-- Claim C5: the per-tenant prefix rewrites only `craft_` table
identifiers, so the ATDW product lookup SQL is sent unchanged, and for
any two valid tenants the SQL issued for the ATDW lookup is identical —
ATDW import data is not isolated by tenant. -/
theorem C5_atdw_sql_tenant_invariant (t1 t2 : String)
    (h1 : validTenant t1 = true) (h2 : validTenant t2 = true) :
    prefixSql t1 lookupAtdwByProductIdSql =
        prefixSql t2 lookupAtdwByProductIdSql ∧
      prefixSql t1 lookupAtdwByProductIdSql = lookupAtdwByProductIdSql := by
  have key : ∀ t : String,
      prefixSql t lookupAtdwByProductIdSql = lookupAtdwByProductIdSql := by
    intro t
    unfold prefixSql
    rw [replaceCraftAux_eq_self t lookupAtdwByProductIdSql.data false
      (by decide)]
  exact ⟨(key t1).trans (key t2).symm, key t1⟩

/-- Witness for C5 at two concrete valid tenants. -/
theorem C5_atdw_sql_tenant_invariant_witness :
    validTenant "vicheartland" = true ∧ validTenant "swanvalley" = true ∧
      prefixSql "vicheartland" lookupAtdwByProductIdSql =
        prefixSql "swanvalley" lookupAtdwByProductIdSql :=
  ⟨by decide, by decide,
    (C5_atdw_sql_tenant_invariant "vicheartland" "swanvalley"
      (by decide) (by decide)).1⟩

/-- An enabled product region with its configured postcodes
(`EnabledRegion` in `src/db/queries/atdw.ts`). -/
structure EnabledRegion where
  id : Int
  title : String
  postcodes : List String
deriving DecidableEq, Repr

/-- JavaScript truthiness of an optional string: null, undefined and
the empty string are falsy. -/
def truthyString : Option String → Option String
  | some s => if s.isEmpty then none else some s
  | none => none

/-- Embedding of `matchPostcodeToRegions` (`src/db/queries/atdw.ts`):
the regions whose postcode list contains the given postcode.  The
postcode handed in by the tracer is already trimmed
(`firstLocation?.postcode?.trim()`), so the source's inner `trim` is
the identity here and the falsiness guard is the emptiness test. -/
def matchPostcodeToRegions (postcode : String)
    (regions : List EnabledRegion) : List EnabledRegion :=
  if postcode.isEmpty then []
  else regions.filter fun r => r.postcodes.contains postcode

/-- Embedding of the `atdw_postcode_match` step of `traceAtdwImport`
(`src/db/filter-chains/atdw.ts`, first version, lines 163–191):
`targetPresent = postcodeInConfiguredSet || !regionFilteringActive`. -/
def atdwPostcodeMatchStep (productPostcode productCity : Option String)
    (regions : List EnabledRegion) (allPostcodes : List String) : TraceStep :=
  let matchingRegions :=
    match truthyString productPostcode with
    | some pc => matchPostcodeToRegions pc regions
    | none => []
  let postcodeInConfiguredSet := decide (matchingRegions.length > 0)
  let regionFilteringActive :=
    decide (regions.length > 0) && decide (allPostcodes.length > 0)
  let pc := (truthyString productPostcode).getD ""
  let city := productCity.getD "unknown"
  let nMatching := matchingRegions.length
  let nAll := allPostcodes.length
  let titles := String.intercalate ", " (matchingRegions.map fun r => r.title)
  { step := .atdw_postcode_match
    description :=
      match truthyString productPostcode with
      | none => "Product has no postcode data."
      | some _ =>
        if postcodeInConfiguredSet then
          s!"Postcode \"{pc}\" ({city}) matches {nMatching} region(s): {titles}."
        else if regionFilteringActive then
          s!"Postcode \"{pc}\" ({city}) does not match any of the {nAll} configured postcodes."
        else
          s!"Product postcode: \"{pc}\" ({city}). No region filtering active."
    count := matchingRegions.length
    productIds := []
    targetPresent := some (postcodeInConfiguredSet || !regionFilteringActive) }

/-- Embedding of the `atdw_postcode_match` step of the second version of
`traceAtdwImport` (`src/db/filter-chains/atdw.ts`, lines 607–670):
returns the `hasPostcode` flag the later steps consume together with
the pushed trace step. -/
def atdwPostcodeMatchStepV2 (productPostcode productCity : Option String)
    (regions : List EnabledRegion) (allPostcodes : List String) :
    Bool × TraceStep :=
  let regionFilteringConfigured :=
    decide (regions.length > 0) && decide (allPostcodes.length > 0)
  let pc := (truthyString productPostcode).getD ""
  let city := productCity.getD "unknown"
  let nAll := allPostcodes.length
  if regionFilteringConfigured then
    match truthyString productPostcode with
    | none =>
      (false,
        { step := .atdw_postcode_match
          description :=
            "Product has no location/postcode data. When region filtering is active, products without a postcode cannot be matched to any region."
          count := 0
          productIds := []
          targetPresent := some false })
    | some pcv =>
      let matchingRegions := matchPostcodeToRegions pcv regions
      let nMatching := matchingRegions.length
      let titles := String.intercalate ", " (matchingRegions.map fun r => r.title)
      if matchingRegions.length > 0 then
        (true,
          { step := .atdw_postcode_match
            description :=
              s!"Postcode \"{pc}\" ({city}) matches {nMatching} regions: {titles}. Product passes the region check."
            count := matchingRegions.length
            productIds := []
            targetPresent := some true })
      else
        (false,
          { step := .atdw_postcode_match
            description :=
              s!"Postcode \"{pc}\" ({city}) does not match any enabled product region. The {nAll} configured postcodes do not include \"{pc}\". This product will be marked INACTIVE."
            count := 0
            productIds := []
            targetPresent := some false })
  else
    (true,
      { step := .atdw_postcode_match
        description :=
          "No region filtering active (no product regions with postcodes configured). All products pass."
        count := 1
        productIds := []
        targetPresent := some true })

theorem truthyString_eq_some (s : Option String) (pc : String) :
    truthyString s = some pc → pc.isEmpty = false := by
  intro h
  rcases s with _ | v
  · exact absurd h (by simp [truthyString])
  · unfold truthyString at h
    dsimp only at h
    by_cases hv : v.isEmpty
    · rw [if_pos hv] at h
      exact absurd h (by simp)
    · rw [if_neg hv] at h
      rw [← Option.some.inj h]
      exact Bool.eq_false_iff.mpr hv

theorem matchPostcodeToRegions_decide_any (pc : String)
    (regions : List EnabledRegion) (hpc : pc.isEmpty = false) :
    decide ((matchPostcodeToRegions pc regions).length > 0) =
      (regions.any fun r => r.postcodes.contains pc) := by
  unfold matchPostcodeToRegions
  rw [if_neg (by rw [hpc]; exact Bool.false_ne_true)]
  induction regions with
  | nil => rfl
  | cons r rs ih =>
    rw [List.filter_cons, List.any_cons]
    by_cases hr : (r.postcodes.contains pc) = true
    · rw [if_pos hr, hr]
      simp
    · rw [if_neg hr, Bool.eq_false_iff.mpr hr]
      rw [Bool.false_or]
      exact ih

/-- Claim C7: in the `atdw_postcode_match` step (both versions of the
import-domain collector), `targetPresent` equals (the record's
first-location postcode is in the configured region postcode set) OR
(region filtering is not active); in particular, a record without a
(truthy) postcode while region filtering is active gets
`targetPresent = false`. -/
theorem C7_atdw_postcode_match_spec (productPostcode productCity :
    Option String) (regions : List EnabledRegion)
    (allPostcodes : List String) :
    ((atdwPostcodeMatchStep productPostcode productCity regions
        allPostcodes).targetPresent =
      some ((regions.any fun r =>
          match truthyString productPostcode with
          | some pc => r.postcodes.contains pc
          | none => false) ||
        !(decide (regions.length > 0) && decide (allPostcodes.length > 0)))) ∧
      ((atdwPostcodeMatchStepV2 productPostcode productCity regions
          allPostcodes).2.targetPresent =
        some ((regions.any fun r =>
            match truthyString productPostcode with
            | some pc => r.postcodes.contains pc
            | none => false) ||
          !(decide (regions.length > 0) &&
            decide (allPostcodes.length > 0)))) ∧
      (truthyString productPostcode = none →
        (decide (regions.length > 0) &&
            decide (allPostcodes.length > 0)) = true →
        (atdwPostcodeMatchStep productPostcode productCity regions
            allPostcodes).targetPresent = some false ∧
          (atdwPostcodeMatchStepV2 productPostcode productCity regions
            allPostcodes).2.targetPresent = some false) := by
  refine ⟨?_, ?_, ?_⟩
  · unfold atdwPostcodeMatchStep
    rcases htr : truthyString productPostcode with _ | pc
    · simp [htr]
    · have hpc := truthyString_eq_some _ _ htr
      simp only [htr]
      rw [matchPostcodeToRegions_decide_any pc regions hpc]
  · unfold atdwPostcodeMatchStepV2
    by_cases hcfg : (decide (regions.length > 0) &&
        decide (allPostcodes.length > 0)) = true
    · rw [if_pos hcfg]
      rcases htr : truthyString productPostcode with _ | pc
      · simp [htr, hcfg]
      · have hpc := truthyString_eq_some _ _ htr
        have hd := matchPostcodeToRegions_decide_any pc regions hpc
        by_cases hmatch : (matchPostcodeToRegions pc regions).length > 0
        · have hany : (regions.any fun r => r.postcodes.contains pc) = true := by
            rw [← hd]
            exact decide_eq_true_eq.mpr hmatch
          simp [htr, hmatch, hany]
          exact Or.inl (by simpa using hany)
        · have hany : (regions.any fun r => r.postcodes.contains pc) = false := by
            rw [← hd]
            exact decide_eq_false hmatch
          simp [htr, hmatch, hany, hcfg]
          simpa using hany
    · rw [if_neg hcfg]
      have hfalse : (decide (regions.length > 0) &&
          decide (allPostcodes.length > 0)) = false :=
        Bool.eq_false_iff.mpr hcfg
      simp [hfalse]
  · intro htr hcfg
    constructor
    · unfold atdwPostcodeMatchStep
      simp [htr, hcfg]
    · unfold atdwPostcodeMatchStepV2
      rw [if_pos hcfg]
      simp [htr]

/-- Witness for C7 at a concrete input: region filtering active (one
region with postcode "3450"), record postcode "3500" not in the set:
`targetPresent = false`; and a record with no postcode also gets
`targetPresent = false`. -/
theorem C7_atdw_postcode_match_spec_witness :
    (atdwPostcodeMatchStep (some "3500") (some "Mildura")
        [⟨11, "Goldfields", ["3450", "3451"]⟩] ["3450", "3451"]).targetPresent =
      some false ∧
      (atdwPostcodeMatchStepV2 none none
        [⟨11, "Goldfields", ["3450", "3451"]⟩] ["3450", "3451"]).2.targetPresent =
      some false := by
  constructor
  · have h := (C7_atdw_postcode_match_spec (some "3500") (some "Mildura")
      [⟨11, "Goldfields", ["3450", "3451"]⟩] ["3450", "3451"]).1
    rw [h]
    decide
  · exact ((C7_atdw_postcode_match_spec none none
      [⟨11, "Goldfields", ["3450", "3451"]⟩] ["3450", "3451"]).2.2
      (by decide) (by decide)).2

/-- Role of a chat message (`ChatMessage` in `src/types.ts`). -/
inductive ChatRole where
  | user
  | assistant
deriving DecidableEq, Repr

/-- One conversation turn. -/
structure ChatMessage where
  role : ChatRole
  content : String
deriving DecidableEq, Repr

/-- Per-message truncation inside `buildHistoryContext`
(`src/explain/generator.ts`): contents longer than 500 characters are
cut to 500 and an ellipsis is appended.  The JavaScript
`content.slice(0, 500)` is modelled on the character sequence. -/
def truncateContent (c : String) : String :=
  if c.length > 500 then String.mk (c.data.take 500) ++ "..." else c

/-- Role label used when rendering history lines. -/
def roleLabel : ChatRole → String
  | .user => "Client"
  | .assistant => "You"

/-- Rendering of one included history message. -/
def renderHistoryLine (m : ChatMessage) : String :=
  roleLabel m.role ++ ": " ++ truncateContent m.content

/-- The loop of `buildHistoryContext` (`src/explain/generator.ts`
lines 618–636): walk the history in order, truncate each message,
subtract its length from the running budget and stop (`break`) at the
first message that drives the budget negative. -/
def historyLines : Int → List ChatMessage → List String
  | _, [] => []
  | budget, m :: rest =>
    let content := truncateContent m.content
    let newBudget := budget - content.length
    if newBudget < 0 then []
    else (roleLabel m.role ++ ": " ++ content) :: historyLines newBudget rest

/-- Embedding of `buildHistoryContext`: empty history yields the empty
string; otherwise the header, the included lines and the footer are
joined with newlines. -/
def buildHistoryContext (history : List ChatMessage) : String :=
  if history.isEmpty then ""
  else
    String.intercalate "\n"
      (("\n--- CONVERSATION HISTORY ---" :: historyLines 3000 history) ++
        ["--- END HISTORY ---\n"])

theorem historyLines_take (b : Int) (hb : 0 ≤ b)
    (history : List ChatMessage) :
    ∃ n, historyLines b history = (history.take n).map renderHistoryLine ∧
      (((history.take n).map fun m =>
        (truncateContent m.content).length).sum : Int) ≤ b := by
  induction history generalizing b with
  | nil => exact ⟨0, rfl, by simpa⟩
  | cons m rest ih =>
    by_cases hneg : (b - ((truncateContent m.content).length : Int)) < 0
    · refine ⟨0, ?_, by simpa⟩
      rw [historyLines]
      rw [if_pos hneg]
      rfl
    · have hb2 : 0 ≤ b - ((truncateContent m.content).length : Int) :=
        le_of_not_lt hneg
      obtain ⟨n, h1, h2⟩ := ih _ hb2
      refine ⟨n + 1, ?_, ?_⟩
      · rw [historyLines, if_neg hneg, h1]
        rfl
      · rw [List.take_succ_cons, List.map_cons, List.sum_cons]
        push_cast
        push_cast at h2
        omega

/-- Claim C9 (amended): history packing truncates each message to 500
characters with an appended ellipsis and includes messages under a
3,000-character running budget — but messages are taken oldest-first
and inclusion stops at the first message that would overdraw the
budget, so when the budget is exceeded the more recent messages are the
ones dropped, not the older ones. -/
theorem C9_history_budget_spec (history : List ChatMessage) :
    (∃ n, historyLines 3000 history =
        (history.take n).map renderHistoryLine ∧
      (((history.take n).map fun m =>
        (truncateContent m.content).length).sum : Int) ≤ 3000) ∧
      ∀ m ∈ history, m.content.length > 500 →
        truncateContent m.content = String.mk (m.content.data.take 500) ++ "..." := by
  refine ⟨historyLines_take 3000 (by norm_num) history, ?_⟩
  intro m hm hlong
  unfold truncateContent
  rw [if_pos hlong]

/-- Seven-message history used by the C9 counterexample: each content
is exactly 500 characters, distinguished by its first character. -/
def c9msg (i : Nat) : ChatMessage :=
  ⟨.user, String.mk (Char.ofNat (48 + i) :: List.replicate 499 'a')⟩

set_option maxRecDepth 100000 in
/-- Counterexample for claim C9 as stated: with seven 500-character
messages and the 3,000-character budget, the first six (oldest)
messages are included and the seventh — the most recent — is dropped,
so the most recent messages are not always retained. -/
theorem C9_counterexample :
    historyLines 3000
        [c9msg 1, c9msg 2, c9msg 3, c9msg 4, c9msg 5, c9msg 6, c9msg 7] =
        [c9msg 1, c9msg 2, c9msg 3, c9msg 4, c9msg 5,
          c9msg 6].map renderHistoryLine ∧
      renderHistoryLine (c9msg 7) ∉
        historyLines 3000
          [c9msg 1, c9msg 2, c9msg 3, c9msg 4, c9msg 5, c9msg 6, c9msg 7] := by
  decide

set_option maxRecDepth 100000 in
/-- Witness for the amended C9 at a concrete long message: a
600-character content is truncated to 500 characters plus an
ellipsis. -/
theorem C9_history_budget_spec_witness :
    truncateContent (String.mk (List.replicate 600 'b')) =
      String.mk ((String.mk (List.replicate 600 'b')).data.take 500) ++
        "..." := by
  have h := C9_history_budget_spec
    [⟨.user, String.mk (List.replicate 600 'b')⟩]
  exact h.2 ⟨.user, String.mk (List.replicate 600 'b')⟩ (by decide) (by decide)

/-- One retrieved chunk (`AutoRAGChunk` in `src/knowledge/search.ts`):
`text` may be absent. -/
structure AutoRAGChunk where
  text : Option String
deriving DecidableEq, Repr

/-- One search result (`AutoRAGResult`).  The numeric relevance score
appears only through its `toFixed(2)` rendering, so it is carried as
the rendered string. -/
structure AutoRAGResult where
  filename : Option String
  score : Option String
  content : Option (List AutoRAGChunk)
deriving DecidableEq, Repr

/-- The semantic-search response shape (`AutoRAGResponse`): `data` may
be absent. -/
structure AutoRAGResponse where
  data : Option (List AutoRAGResult)
deriving DecidableEq, Repr

/-- Formatting of one search result into a
`--- {filename} (score: X) --- {chunks}` section. -/
def formatSearchResult (r : AutoRAGResult) : String :=
  let text :=
    match r.content with
    | some chunks => String.intercalate "\n" (chunks.map fun c => c.text.getD "")
    | none => ""
  "--- " ++ r.filename.getD "document" ++ " (score: " ++ r.score.getD "?" ++
    ") ---\n" ++ text

/-- Embedding of `retrieveContext` (`src/knowledge/search.ts`): the
semantic-search call either throws (the `Except.error` case, swallowed
by the `try`/`catch`) or returns a response; a response with no `data`
or an empty `data` yields the empty string, otherwise the formatted
sections joined by blank lines. -/
def retrieveContext (searchOutcome : Except String AutoRAGResponse) :
    String :=
  match searchOutcome with
  | .error _ => ""
  | .ok resp =>
    match resp.data with
    | some results =>
      if results.length > 0 then
        String.intercalate "\n\n" (results.map formatSearchResult)
      else ""
    | none => ""

/-- Claim C10: context retrieval never throws — it is a total function
of the search outcome; any failure of the semantic-search call yields
the empty string, and a successful call with absent or empty results
also yields the empty string. -/
theorem C10_retrieveContext_spec (searchOutcome :
    Except String AutoRAGResponse) :
    (∀ e, searchOutcome = .error e → retrieveContext searchOutcome = "") ∧
      (searchOutcome = .ok ⟨none⟩ → retrieveContext searchOutcome = "") ∧
      (searchOutcome = .ok ⟨some []⟩ → retrieveContext searchOutcome = "") := by
  refine ⟨?_, ?_, ?_⟩
  · intro e he
    rw [he]
    rfl
  · intro he
    rw [he]
    rfl
  · intro he
    rw [he]
    rfl

/-- Witness for C10 at concrete outcomes: a transport failure, a
response without `data`, and a response with empty `data` all yield the
empty string. -/
theorem C10_retrieveContext_spec_witness :
    retrieveContext (.error "AutoRAG retrieval failed") = "" ∧
      retrieveContext (.ok ⟨none⟩) = "" ∧
      retrieveContext (.ok ⟨some []⟩) = "" :=
  ⟨(C10_retrieveContext_spec (.error "AutoRAG retrieval failed")).1
      "AutoRAG retrieval failed" rfl,
    (C10_retrieveContext_spec (.ok ⟨none⟩)).2.1 rfl,
    (C10_retrieveContext_spec (.ok ⟨some []⟩)).2.2 rfl⟩

end Roam
